import Mathlib

/-!
Shallow embedding of the ChatOps command-resolution and workflow-execution
pipeline (`bot/app.py`, `bot/command_parser.py`, `bot/workflow_manager.py`),
together with theorems settling the frozen claims about it.

Python dictionaries are modelled as insertion-ordered association lists,
Python scalar values as the inductive `Value`, and the external integration
adapters (Jenkins, Ansible, Terraform) as opaque function parameters, since
their concrete behaviour lives outside the embedded pipeline code.
-/

namespace ChatOps

/-- YAML/JSON-style values flowing through the pipeline, modelling the
Python `Any` values held in step parameters and command parameters. -/
inductive Value where
  | str (s : String)
  | vint (n : Int)
  | vbool (b : Bool)
  | vnone
  | vlist (items : List Value)
  | vdict (entries : List (String × Value))
deriving BEq, Repr

/-- Association-list lookup, modelling Python `d[k]` / `k in d` on a dict. -/
def lookupValue (k : String) : List (String × Value) → Option Value
  | [] => none
  | (k2, v) :: rest => if k2 == k then some v else lookupValue k rest

/-- Python truthiness (`bool(v)`) for the modelled values. -/
def pyTruthy : Value → Bool
  | .str s => s ≠ ""
  | .vint n => n ≠ 0
  | .vbool b => b
  | .vnone => false
  | .vlist items => ¬ items.isEmpty
  | .vdict entries => ¬ entries.isEmpty

/-- Contiguous-sublist test on character lists, the semantics of Python
substring membership `needle in hay`. -/
def containsSub (hay needle : List Char) : Bool :=
  if needle.isPrefixOf hay then true
  else
    match hay with
    | [] => false
    | _ :: rest => containsSub rest needle

/-- Python `s.lower()` (character-wise lowercasing). -/
def pyLower (s : String) : String :=
  ⟨s.toList.map Char.toLower⟩

/-- Python `s.startswith(p)` (character-wise prefix test). -/
def pyStartswith (s p : String) : Bool :=
  p.toList.isPrefixOf s.toList

/-- Python `s.endswith(p)` (character-wise suffix test). -/
def pyEndswith (s p : String) : Bool :=
  p.toList.isSuffixOf s.toList

/-- Python slice `s[2:-1]` on a string (drop first two characters and the
last character). -/
def pySlice2m1 (s : String) : String :=
  ⟨(s.toList.drop 2).dropLast⟩

/-- The placeholder test and extraction used by `_replace_parameters` and
`_replace_item`: a string value that starts with the two characters dollar
and open-brace and ends with close-brace denotes the name between them
(`value[2:-1]` in the source). -/
def extractPlaceholder (s : String) : Option String :=
  if pyStartswith s "$\x7b" && pyEndswith s "\x7d" then
    some (pySlice2m1 s)
  else
    none

mutual

/-- Embeds `WorkflowManager._replace_parameters`: one substitution pass over
a step-parameter mapping against the command parameters. -/
def replaceParameters (stepParams params : List (String × Value)) :
    List (String × Value) :=
  match stepParams with
  | [] => []
  | (key, value) :: rest =>
    let newValue : Value :=
      match value with
      | .str s =>
        match extractPlaceholder s with
        | some paramName =>
          match lookupValue paramName params with
          | some v => v
          | none => .str s
        | none => .str s
      | .vdict d => .vdict (replaceParameters d params)
      | .vlist items => .vlist (replaceList items params)
      | v => v
    (key, newValue) :: replaceParameters rest params

/-- Embeds `WorkflowManager._replace_item`: one substitution pass over a
single value. -/
def replaceItem (item : Value) (params : List (String × Value)) : Value :=
  match item with
  | .str s =>
    match extractPlaceholder s with
    | some paramName =>
      match lookupValue paramName params with
      | some v => v
      | none => .str s
    | none => .str s
  | .vdict d => .vdict (replaceParameters d params)
  | .vlist items => .vlist (replaceList items params)
  | v => v

/-- The list comprehension `[self._replace_item(item, parameters) for item in value]`. -/
def replaceList (items : List Value) (params : List (String × Value)) :
    List Value :=
  match items with
  | [] => []
  | item :: rest => replaceItem item params :: replaceList rest params

end

mutual

/-- Python `str(v)` rendering, used by the source only to splice values into
messages (f-strings); container rendering is approximate but total. -/
def pyStr : Value → String
  | .str s => s
  | .vint n => toString n
  | .vbool b => if b then "True" else "False"
  | .vnone => "None"
  | .vlist items => "[" ++ String.intercalate ", " (pyStrList items) ++ "]"
  | .vdict entries => "\x7b" ++ String.intercalate ", " (pyStrEntries entries) ++ "\x7d"

/-- Renders each element of a list. -/
def pyStrList : List Value → List String
  | [] => []
  | v :: rest => pyStr v :: pyStrList rest

/-- Renders each entry of a dict. -/
def pyStrEntries : List (String × Value) → List String
  | [] => []
  | (k, v) :: rest => (k ++ ": " ++ pyStr v) :: pyStrEntries rest

end

mutual

/-- Python `==` on the modelled value domain: structural equality (strings,
numbers and booleans compare within their own kind, lists elementwise,
dicts entrywise). -/
def valueEq : Value → Value → Bool
  | .str a, .str b => a == b
  | .vint a, .vint b => a == b
  | .vbool a, .vbool b => a == b
  | .vnone, .vnone => true
  | .vlist xs, .vlist ys => valueListEq xs ys
  | .vdict xs, .vdict ys => valueDictEq xs ys
  | _, _ => false

/-- Elementwise equality of value lists. -/
def valueListEq : List Value → List Value → Bool
  | [], [] => true
  | x :: xs, y :: ys => valueEq x y && valueListEq xs ys
  | _, _ => false

/-- Entrywise equality of value dicts. -/
def valueDictEq : List (String × Value) → List (String × Value) → Bool
  | [], [] => true
  | (k1, v1) :: xs, (k2, v2) :: ys => k1 == k2 && valueEq v1 v2 && valueDictEq xs ys
  | _, _ => false

end

/-- Numeric view of a value for Python comparison operators (Python treats
`bool` as the integers 0 and 1). -/
def toNum : Value → Option Int
  | .vint n => some n
  | .vbool b => some (if b then 1 else 0)
  | _ => none

/-- Python ordered comparison of two values: defined for string/string and
numeric/numeric pairs, a `TypeError` otherwise. -/
def pyCompare (a b : Value) : Except String Ordering :=
  match a, b with
  | .str x, .str y => .ok (compare x y)
  | _, _ =>
    match toNum a, toNum b with
    | some x, some y => .ok (compare x y)
    | _, _ => .error "TypeError: unsupported comparison between instances"

/-- Python membership `x in container`: substring test on strings, elementwise
equality on lists, key membership on dicts, a `TypeError` otherwise. -/
def pyIn (x container : Value) : Except String Bool :=
  match container with
  | .str s =>
    match x with
    | .str sub => .ok (containsSub s.toList sub.toList)
    | _ => .error "TypeError: in <string> requires string as left operand"
  | .vlist items => .ok (items.any (fun v => valueEq v x))
  | .vdict entries =>
    match x with
    | .str k => .ok (entries.any (fun e => e.1 == k))
    | .vlist _ => .error "TypeError: unhashable type"
    | .vdict _ => .error "TypeError: unhashable type"
    | _ => .ok false
  | _ => .error "TypeError: argument is not iterable"

/-- Embeds `WorkflowManager._evaluate_condition`: dispatch on the operator
string; an unrecognized operator returns `false` (after a logged warning),
never an error. Comparison `TypeError`s are propagated as `.error` and are
caught by the per-step handler in `_execute_workflow`. -/
def evaluateCondition (actual expected : Value) (operator : String) :
    Except String Bool :=
  if operator == "eq" then .ok (valueEq actual expected)
  else if operator == "ne" then .ok (!(valueEq actual expected))
  else if operator == "gt" then (pyCompare actual expected).map (fun o => o == .gt)
  else if operator == "lt" then (pyCompare actual expected).map (fun o => o == .lt)
  else if operator == "ge" then (pyCompare actual expected).map (fun o => o != .lt)
  else if operator == "le" then (pyCompare actual expected).map (fun o => o != .gt)
  else if operator == "contains" then pyIn expected actual
  else if operator == "not_contains" then (pyIn expected actual).map (fun b => !b)
  else .ok false

/-- The `condition` dictionary of a condition step, with the defaults the
source applies at each access baked in (`type` defaults to the empty string,
`operator` to `eq`, `step` to `1`, and a missing `value` reads as `None`). -/
structure CondSpec where
  ctype : String
  parameter : Option String
  value : Value
  operator : String
  stepIdx : Int
deriving Repr

/-- A workflow step as read by `_execute_workflow`: the dictionary keys the
engine accesses (`name`, `type`, `parameters`, `condition`, `then`, `else`). -/
inductive Step where
  | mk (name : Option String) (type : String)
       (parameters : List (String × Value)) (condition : CondSpec)
       (thenSteps : List Step) (elseSteps : List Step)

/-- The `name` key of a step. -/
def Step.getName : Step → Option String
  | .mk n _ _ _ _ _ => n

/-- The `type` key of a step (defaulted to the empty string). -/
def Step.getType : Step → String
  | .mk _ t _ _ _ _ => t

/-- The `parameters` key of a step (defaulted to the empty dict). -/
def Step.getParameters : Step → List (String × Value)
  | .mk _ _ p _ _ _ => p

/-- The `condition` key of a step (defaulted). -/
def Step.getCondition : Step → CondSpec
  | .mk _ _ _ c _ _ => c

/-- The `then` key of a step (defaulted to the empty list). -/
def Step.getThen : Step → List Step
  | .mk _ _ _ _ t _ => t

/-- The `else` key of a step (defaulted to the empty list). -/
def Step.getElse : Step → List Step
  | .mk _ _ _ _ _ e => e

/-- A workflow dictionary as read by `_execute_workflow`: its `name` key
(optional) and its `steps` key. -/
structure Workflow where
  name : Option String
  steps : List Step

/-- The outcome a single step execution produces in the source: either a
result dictionary or a bare string (the unknown-step-type branch). -/
inductive StepOutcome where
  | odict (entries : List (String × Value))
  | ostr (s : String)
deriving BEq, Repr

/-- One entry of the `results` list accumulated by `_execute_workflow`:
`{'step': i, 'name': ..., 'type': ..., 'result': ...}`. -/
structure StepResultR where
  step : Nat
  name : String
  type : String
  result : StepOutcome
deriving BEq, Repr

/-- A result dictionary `{'success': b, 'message': m}` as built by the
internal step executors. -/
def mkOutcome (success : Bool) (message : String) : StepOutcome :=
  .odict [("success", .vbool success), ("message", .str message)]

/-- The halting test of `_execute_workflow`:
`isinstance(result, dict) and not result.get('success', True)`. -/
def outcomeFailed : StepOutcome → Bool
  | .odict entries => !(pyTruthy ((lookupValue "success" entries).getD (.vbool true)))
  | .ostr _ => false

/-- The external integration adapters (`self.jenkins.trigger_job`,
`self.ansible.run_playbook`, `self.terraform.run_terraform`): opaque
capabilities returning a result dictionary, per the adapter contract. -/
structure Integrations where
  jenkinsTrigger : Value → Value → Value → List (String × Value)
  ansibleRun : Value → Value → Value → List (String × Value)
  terraformRun : Value → Value → Value → Value → List (String × Value)

/-- Observational record of one dispatch of a step to an execution branch
(jenkins / ansible / terraform / notification), with the substituted
parameters it received. -/
structure Call where
  kind : String
  params : List (String × Value)
deriving BEq, Repr

/-- Embeds `WorkflowManager._execute_jenkins_step`. -/
def execJenkinsStep (env : Integrations) (params : List (String × Value)) :
    StepOutcome :=
  let jobName := (lookupValue "job" params).getD .vnone
  let jobParams := (lookupValue "parameters" params).getD (.vdict [])
  let wait := (lookupValue "wait" params).getD (.vbool true)
  if !(pyTruthy jobName) then mkOutcome false "No Jenkins job specified"
  else .odict (env.jenkinsTrigger jobName jobParams wait)

/-- Embeds `WorkflowManager._execute_ansible_step`. -/
def execAnsibleStep (env : Integrations) (params : List (String × Value)) :
    StepOutcome :=
  let playbook := (lookupValue "playbook" params).getD .vnone
  let inventory := (lookupValue "inventory" params).getD .vnone
  let extraVars := (lookupValue "extra_vars" params).getD (.vdict [])
  if !(pyTruthy playbook) then mkOutcome false "No Ansible playbook specified"
  else .odict (env.ansibleRun playbook inventory extraVars)

/-- Embeds `WorkflowManager._execute_terraform_step`. -/
def execTerraformStep (env : Integrations) (params : List (String × Value)) :
    StepOutcome :=
  let action := (lookupValue "action" params).getD (.str "apply")
  let workspace := (lookupValue "workspace" params).getD (.str "default")
  let varFile := (lookupValue "var_file" params).getD .vnone
  let varsDict := (lookupValue "vars" params).getD (.vdict [])
  .odict (env.terraformRun action workspace varFile varsDict)

/-- Embeds `WorkflowManager._execute_notification_step`. -/
def execNotificationStep (params : List (String × Value)) : StepOutcome :=
  let message := (lookupValue "message" params).getD (.str "Notification from ChatOps")
  mkOutcome true ("Notification sent: " ++ pyStr message)

/-- The per-result success test of `_format_workflow_result`
(`step_result.get('success', True)` on dicts, non-dicts never falsify), with
the loop-and-break of the source expressed as `List.all`. -/
def allStepsSucceeded (results : List StepResultR) : Bool :=
  results.all (fun r =>
    match r.result with
    | .odict entries => pyTruthy ((lookupValue "success" entries).getD (.vbool true))
    | .ostr _ => true)

/-- One step line of the formatted report. -/
def stepLine (r : StepResultR) : String :=
  match r.result with
  | .odict entries =>
    let success := pyTruthy ((lookupValue "success" entries).getD (.vbool true))
    let resultMessage := pyStr ((lookupValue "message" entries).getD (.str "No message"))
    if success then
      "  ✅ Step " ++ toString r.step ++ ": " ++ r.name ++ " (" ++ r.type ++ ") - "
        ++ resultMessage ++ "\n"
    else
      "  ❌ Step " ++ toString r.step ++ ": " ++ r.name ++ " (" ++ r.type ++ ") - "
        ++ resultMessage ++ "\n"
  | .ostr s =>
    "  ✓ Step " ++ toString r.step ++ ": " ++ r.name ++ " (" ++ r.type ++ ") - "
      ++ s ++ "\n"

/-- Embeds `WorkflowManager._format_workflow_result`. -/
def formatWorkflowResult (workflowName : String) (results : List StepResultR) :
    String :=
  let header :=
    if allStepsSucceeded results then
      "✅ Workflow \x27" ++ workflowName ++ "\x27 completed successfully\n\n"
    else
      "❌ Workflow \x27" ++ workflowName ++ "\x27 failed\n\n"
  header ++ "Steps:\n" ++ String.join (results.map stepLine)

/-- Any list has positive default size, used for the termination measures of
the mutual engine definitions. -/
theorem list_sizeOf_pos {α : Type} [SizeOf α] (l : List α) : 0 < sizeOf l := by
  cases l <;> simp

mutual

/-- Embeds the per-step dispatch of `_execute_workflow`: route the step by
its lowercased `type` after substituting placeholders in its parameters.
`.error` models a Python exception escaping to the per-step handler. The
second component is the observational record of execution-branch dispatches,
including those performed by nested condition branches. -/
def dispatchStep (env : Integrations) (step : Step)
    (params : List (String × Value)) (results : List StepResultR) :
    Except String StepOutcome × List Call :=
  match step with
  | .mk _ ty sp cond thn els =>
    let stepParams := replaceParameters sp params
    let t := pyLower ty
    if t == "jenkins" then
      (.ok (execJenkinsStep env stepParams), [⟨"jenkins", stepParams⟩])
    else if t == "ansible" then
      (.ok (execAnsibleStep env stepParams), [⟨"ansible", stepParams⟩])
    else if t == "terraform" then
      (.ok (execTerraformStep env stepParams), [⟨"terraform", stepParams⟩])
    else if t == "condition" then
      execConditionStep env cond thn els params results
    else if t == "notification" then
      (.ok (execNotificationStep stepParams), [⟨"notification", stepParams⟩])
    else
      (.ok (.ostr ("Unknown step type: " ++ t)), [])
termination_by (sizeOf step, 0)

/-- Embeds `WorkflowManager._execute_condition_step` (the step's `condition`,
`then` and `else` keys are passed in). Branch steps are executed through a
fresh nested `_execute_workflow` invocation whose report is discarded; only
the condition step's own result dictionary is returned. -/
def execConditionStep (env : Integrations) (cond : CondSpec)
    (thn els : List Step) (params : List (String × Value))
    (results : List StepResultR) : Except String StepOutcome × List Call :=
  if cond.ctype == "parameter" then
    match (match cond.parameter with
           | some pname => lookupValue pname params
           | none => none) with
    | none =>
      (.ok (mkOutcome false
        ("Parameter \x27" ++ (cond.parameter.getD "None") ++ "\x27 not found")), [])
    | some actual =>
      match evaluateCondition actual cond.value cond.operator with
      | .error e => (.error e, [])
      | .ok true =>
        (.ok (mkOutcome true "Condition evaluated to true"), execBranch env thn params)
      | .ok false =>
        (.ok (mkOutcome true "Condition evaluated to false"), execBranch env els params)
  else if cond.ctype == "result" then
    let stepIndex : Int := cond.stepIdx - 1
    if stepIndex < 0 || stepIndex ≥ (results.length : Int) then
      (.ok (mkOutcome false
        ("Step " ++ toString (stepIndex + 1) ++ " result not found")), [])
    else
      match results[stepIndex.toNat]? with
      | none =>
        (.ok (mkOutcome false
          ("Step " ++ toString (stepIndex + 1) ++ " result not found")), [])
      | some r =>
        match r.result with
        | .odict entries =>
          let success := pyTruthy ((lookupValue "success" entries).getD (.vbool false))
          if success then
            (.ok (mkOutcome true "Condition evaluated to true"), execBranch env thn params)
          else
            (.ok (mkOutcome true "Condition evaluated to false"), execBranch env els params)
        | .ostr _ =>
          (.ok (mkOutcome false ("Unknown condition type: " ++ cond.ctype)), [])
  else
    (.ok (mkOutcome false ("Unknown condition type: " ++ cond.ctype)), [])
termination_by (sizeOf thn + sizeOf els, 0)
decreasing_by
all_goals
  apply Prod.Lex.left
  have h1 := list_sizeOf_pos els
  have h2 := list_sizeOf_pos thn
  omega

/-- Embeds the loop over `then`/`else` steps of `_execute_condition_step`:
each branch step is run through `self._execute_workflow({'steps': [then_step]},
parameters)` and the returned report string is discarded. -/
def execBranch (env : Integrations) (steps : List Step)
    (params : List (String × Value)) : List Call :=
  match steps with
  | [] => []
  | s :: rest =>
    (executeWorkflow env ⟨none, [s]⟩ params).2 ++ execBranch env rest params
termination_by (sizeOf steps, 3)
decreasing_by
· simp_wf
  rcases rest with _ | ⟨r2, rest2⟩
  · simp
    exact Prod.Lex.right _ (by omega)
  · apply Prod.Lex.left
    have h1 := list_sizeOf_pos rest2
    simp
    omega
· simp_wf
  apply Prod.Lex.left
  omega

/-- Embeds `WorkflowManager._execute_workflow`: the empty-steps early return,
then the step loop followed by report formatting. -/
def executeWorkflow (env : Integrations) (wf : Workflow)
    (params : List (String × Value)) : String × List Call :=
  match wf with
  | ⟨nameOpt, steps⟩ =>
    let workflowName := nameOpt.getD "Unnamed workflow"
    match steps with
    | [] => ("Workflow \x27" ++ workflowName ++ "\x27 has no steps to execute", [])
    | s :: rest =>
      let out := execLoop env params 1 [] (s :: rest)
      (formatWorkflowResult workflowName out.1, out.2)
termination_by (sizeOf wf.steps, 2)

/-- Embeds the step loop of `_execute_workflow` (`for i, step in
enumerate(steps, 1)` with its per-step exception handler and the early
return on a failed result dictionary). `acc` is the `results` list
accumulated so far. -/
def execLoop (env : Integrations) (params : List (String × Value)) (i : Nat)
    (acc : List StepResultR) (steps : List Step) :
    List StepResultR × List Call :=
  match steps with
  | [] => (acc, [])
  | step :: rest =>
    let stepName := step.getName.getD ("Step " ++ toString i)
    let stepTy := pyLower step.getType
    match dispatchStep env step params acc with
    | (.error e, calls1) =>
      (acc ++ [⟨i, stepName, stepTy, mkOutcome false e⟩], calls1)
    | (.ok result, calls1) =>
      let acc2 := acc ++ [⟨i, stepName, stepTy, result⟩]
      if outcomeFailed result then (acc2, calls1)
      else
        let out := execLoop env params (i + 1) acc2 rest
        (out.1, calls1 ++ out.2)
termination_by (sizeOf steps, 1)

end

/-- Association-list lookup for arbitrary payloads, modelling Python dict
lookup with string keys. -/
def assocLookup {α : Type} (k : String) : List (String × α) → Option α
  | [] => none
  | (k2, v) :: rest => if k2 == k then some v else assocLookup k rest

/-- Python `d[k] = v` on an insertion-ordered dict: overwrite in place if the
key is present, append otherwise. -/
def dictSet (d : List (String × Value)) (k : String) (v : Value) :
    List (String × Value) :=
  match d with
  | [] => [(k, v)]
  | (k2, v2) :: rest => if k2 == k then (k2, v) :: rest else (k2, v2) :: dictSet rest k v

/-- One command template of `CommandParser._load_command_templates`. -/
structure CommandTemplate where
  action : String
  requiredEntities : List String
  optionalEntities : List String
  defaults : List (String × Value)
  workflow : Option String

/-- Embeds the static template table of
`CommandParser._load_command_templates`. -/
def commandTemplates : List (String × CommandTemplate) :=
  [("deploy",
    ⟨"deploy", ["service"], ["environment", "version"],
     [("environment", .str "development"), ("version", .str "latest")],
     some "deploy_workflow.yaml"⟩),
   ("scale",
    ⟨"scale", ["service"], ["count", "direction", "environment"],
     [("environment", .str "development"), ("count", .str "1"), ("direction", .str "up")],
     some "scale_workflow.yaml"⟩),
   ("status",
    ⟨"status", [], ["service", "environment"],
     [("environment", .str "development")],
     some "status_workflow.yaml"⟩),
   ("provision",
    ⟨"provision", ["resource"], ["count", "environment", "region"],
     [("environment", .str "development"), ("count", .str "1"), ("region", .str "us-east-1")],
     some "provision_workflow.yaml"⟩),
   ("help",
    ⟨"help", [], ["topic"], [], none⟩)]

/-- A structured command as built by `CommandParser.parse`: the `action` and
`parameters` keys, and the `workflow` key, present only when the template has
a truthy workflow reference. -/
structure Command where
  action : String
  parameters : List (String × Value)
  workflow : Option String
deriving BEq, Repr

/-- Embeds `CommandParser.parse`: template lookup, required-entity check,
then parameters built by copying defaults and overwriting with every
provided entity. -/
def parseCommand (intent : String) (entities : List (String × Value)) :
    Option Command :=
  match assocLookup intent commandTemplates with
  | none => none
  | some template =>
    if template.requiredEntities.any (fun r => (lookupValue r entities).isNone) then
      none
    else
      let params0 := template.defaults.foldl (fun acc kv => dictSet acc kv.1 kv.2) []
      let params := entities.foldl (fun acc kv => dictSet acc kv.1 kv.2) params0
      some
        { action := template.action
          parameters := params
          workflow :=
            match template.workflow with
            | some w => if w == "" then none else some w
            | none => none }

/-- The `security` section of the configuration read by
`ChatOpsApp._is_user_authorized` and `ChatOpsApp._requires_approval`. -/
structure SecurityConfig where
  authorizedUsers : List String
  restrictedCommands : List String
  adminUsers : List String
  approvalRequired : List String

/-- Embeds `ChatOpsApp._is_user_authorized`: membership in the
authorized-user list first, then the case-insensitive restricted-command
substring scan with its admin exemption. -/
def isUserAuthorized (cfg : SecurityConfig) (userId message : String) : Bool :=
  if !(cfg.authorizedUsers.contains userId) then false
  else if cfg.restrictedCommands.any
      (fun r => containsSub (pyLower message).toList (pyLower r).toList
                && !(cfg.adminUsers.contains userId)) then false
  else true

/-- Embeds `ChatOpsApp._requires_approval`. -/
def requiresApproval (cfg : SecurityConfig) (message : String) : Bool :=
  cfg.approvalRequired.any
    (fun c => containsSub (pyLower message).toList (pyLower c).toList)

/-- Observational record of which pipeline components
`ChatOpsApp.process_message` invokes, in order. -/
inductive PipelineEvent where
  | authCheck
  | nlpProcess
  | parseCmd
  | approvalCheck
  | workflowExec
deriving DecidableEq, Repr

/-- The rest of the configuration and collaborators `process_message`
depends on: the NLP resolver (external contract: intent, entities,
confidence), the confidence threshold, the integrations, and the workflow
template store (`_load_workflow_template`, abstracted over the filesystem
and YAML parsing it performs). -/
structure AppEnv where
  security : SecurityConfig
  nlp : String → String × List (String × Value) × ℚ
  confidenceThreshold : ℚ
  integrations : Integrations
  workflowStore : String → Option Workflow

/-- Embeds `WorkflowManager._load_workflow_template`: a falsy workflow name
loads nothing, otherwise the store resolves the name (returning `none` for a
missing or unparsable template). -/
def loadWorkflowTemplate (store : String → Option Workflow) :
    Option String → Option Workflow
  | none => none
  | some n => if n == "" then none else store n

/-- Embeds `WorkflowManager.execute` for workflow-backed commands: load the
template by the command's workflow reference and run it. The source's
`action == 'help'` branch is not modelled: it dereferences
`self.default_templates`, an attribute `__init__` never sets, so it cannot
produce a report. -/
def wmExecute (env : AppEnv) (cmd : Command) : String :=
  match loadWorkflowTemplate env.workflowStore cmd.workflow with
  | none =>
    "Error: Workflow template \x27" ++ cmd.workflow.getD "None" ++ "\x27 not found"
  | some wf => (executeWorkflow env.integrations wf cmd.parameters).1

/-- Embeds `ChatOpsApp.process_message`: authorization check, NLP
resolution, the confidence threshold short-circuit, command parsing, the
approval check, then workflow execution. The second component records which
components were invoked, in order. -/
def processMessage (env : AppEnv) (message userId : String) :
    String × List PipelineEvent :=
  if !(isUserAuthorized env.security userId message) then
    ("You are not authorized to perform this action.", [.authCheck])
  else
    match env.nlp message with
    | (intent, entities, confidence) =>
      if confidence < env.confidenceThreshold then
        ("I\x27m not sure what you want to do. Could you please be more specific?",
          [.authCheck, .nlpProcess])
      else
        match parseCommand intent entities with
        | none =>
          ("I couldn\x27t understand your command. Please try again.",
            [.authCheck, .nlpProcess, .parseCmd])
        | some cmd =>
          if requiresApproval env.security message then
            ("This command requires approval. Please have an admin confirm this action.",
              [.authCheck, .nlpProcess, .parseCmd, .approvalCheck])
          else
            (wmExecute env cmd,
              [.authCheck, .nlpProcess, .parseCmd, .approvalCheck, .workflowExec])

section SubstitutionLemmas

/-- A string assembled as dollar, open brace, `name`, close brace is
recognized as a placeholder for exactly `name`. -/
theorem extractPlaceholder_wrap (name : String) :
    extractPlaceholder ("$\x7b" ++ name ++ "\x7d") = some name := by
  have hdata : ("$\x7b" ++ name ++ "\x7d").data
      = Char.ofNat 36 :: Char.ofNat 123 :: (name.data ++ [Char.ofNat 125]) := by
    simp [String.data_append]
  have hstart : pyStartswith ("$\x7b" ++ name ++ "\x7d") "$\x7b" = true := by
    unfold pyStartswith
    simp [String.toList, hdata, List.isPrefixOf]
  have hend : pyEndswith ("$\x7b" ++ name ++ "\x7d") "\x7d" = true := by
    unfold pyEndswith
    simp [String.toList, hdata, List.isSuffixOf, List.isPrefixOf]
  unfold extractPlaceholder pySlice2m1
  simp [hstart, hend, String.toList, hdata]

end SubstitutionLemmas

/-- C2: placeholder substitution replaces a string value only when the whole
value is of the form dollar-brace-name-brace; a matching value whose name is
a command-parameter key becomes that parameter's value verbatim (never
re-scanned, so a substituted value containing further placeholder syntax is
not expanded), an unmatched name keeps the literal placeholder string, other
strings are kept unchanged, and substitution recurses structurally into
nested mappings and sequences. The functions are total, so substitution
never raises. -/
theorem replace_parameters_whole_match_once :
    (∀ (params : List (String × Value)) (name : String) (v : Value),
       lookupValue name params = some v →
       replaceItem (.str ("$\x7b" ++ name ++ "\x7d")) params = v)
  ∧ (∀ (params : List (String × Value)) (name : String),
       lookupValue name params = none →
       replaceItem (.str ("$\x7b" ++ name ++ "\x7d")) params
         = .str ("$\x7b" ++ name ++ "\x7d"))
  ∧ (∀ (params : List (String × Value)) (s : String),
       extractPlaceholder s = none → replaceItem (.str s) params = .str s)
  ∧ (∀ (params rest : List (String × Value)) (k s : String),
       replaceParameters ((k, .str s) :: rest) params
         = (k, replaceItem (.str s) params) :: replaceParameters rest params)
  ∧ (∀ (params rest d : List (String × Value)) (k : String),
       replaceParameters ((k, .vdict d) :: rest) params
         = (k, .vdict (replaceParameters d params)) :: replaceParameters rest params)
  ∧ (∀ (params rest : List (String × Value)) (k : String) (items : List Value),
       replaceParameters ((k, .vlist items) :: rest) params
         = (k, .vlist (replaceList items params)) :: replaceParameters rest params)
  ∧ (∀ (params : List (String × Value)) (item : Value) (items : List Value),
       replaceList (item :: items) params
         = replaceItem item params :: replaceList items params)
  ∧ replaceItem (.str "$\x7ba\x7d") [("a", .str "$\x7bb\x7d"), ("b", .str "c")]
      = .str "$\x7bb\x7d" := by
  refine ⟨?_, ?_, ?_, ?_, ?_, ?_, ?_, ?_⟩
  · intro params name v h
    simp [replaceItem, extractPlaceholder_wrap, h]
  · intro params name h
    simp [replaceItem, extractPlaceholder_wrap, h]
  · intro params s h
    simp [replaceItem, h]
  · intro params rest k s
    simp [replaceParameters, replaceItem]
  · intro params rest d k
    simp [replaceParameters]
  · intro params rest k items
    simp [replaceParameters]
  · intro params item items
    simp [replaceList]
  · rfl

/-- Witness for C2: the exactly-once scenario of the specification, via the
first conjunct at a concrete input. -/
theorem replace_parameters_whole_match_once_witness :
    lookupValue "a" [("a", .str "$\x7bb\x7d"), ("b", .str "c")]
      = some (.str "$\x7bb\x7d")
    ∧ replaceItem (.str "$\x7ba\x7d") [("a", .str "$\x7bb\x7d"), ("b", .str "c")]
        = .str "$\x7bb\x7d" :=
  ⟨rfl, replace_parameters_whole_match_once.1
    [("a", .str "$\x7bb\x7d"), ("b", .str "c")] "a" (.str "$\x7bb\x7d") rfl⟩

section Fixtures

/-- A concrete integration environment whose adapters always succeed, used
as input for witnesses and counterexamples. -/
def envAllOk : Integrations :=
  ⟨fun _ _ _ => [("success", .vbool true), ("message", .str "jenkins ok")],
   fun _ _ _ => [("success", .vbool true), ("message", .str "ansible ok")],
   fun _ _ _ _ => [("success", .vbool true), ("message", .str "terraform ok")]⟩

/-- A concrete security configuration: one authorized user, one restricted
command, no admins, no approval-required commands. -/
def secCfg0 : SecurityConfig := ⟨["alice"], ["restart"], [], []⟩

/-- A concrete application environment around `secCfg0` whose resolver
always reports the `deploy` intent with no entities at full confidence. -/
def appEnv0 : AppEnv :=
  ⟨secCfg0, fun _ => ("deploy", [], 1), 0, envAllOk, fun _ => none⟩

/-- The defaulted condition dictionary of a non-condition step. -/
def condNone : CondSpec := ⟨"", none, .vnone, "eq", 1⟩

/-- A concrete notification step. -/
def notifyStep (msg : String) : Step :=
  .mk (some "notify") "notification" [("message", .str msg)] condNone [] []

/-- A concrete step of an unregistered kind. -/
def unknownFooStep : Step :=
  .mk (some "mystery") "foo" [] condNone [] []

/-- A concrete Jenkins step. -/
def jenkinsJobStep : Step :=
  .mk (some "build") "jenkins" [("job", .str "deploy")] condNone [] []

/-- A concrete integration environment whose adapters always fail. -/
def envFail : Integrations :=
  ⟨fun _ _ _ => [("success", .vbool false), ("message", .str "jenkins down")],
   fun _ _ _ => [("success", .vbool false), ("message", .str "ansible down")],
   fun _ _ _ _ => [("success", .vbool false), ("message", .str "terraform down")]⟩

end Fixtures

/-- C10: for every pair of values and every operator string outside the
recognized set, `_evaluate_condition` returns `false` — never an error — so
a parameter condition using such an operator takes the `else` branch and the
condition step still reports success. -/
theorem unknown_operator_evaluates_false (a b : Value) (op : String)
    (hop : op ∉ ["eq", "ne", "gt", "lt", "ge", "le", "contains", "not_contains"]) :
    evaluateCondition a b op = .ok false
    ∧ ∀ (env : Integrations) (thn els : List Step) (params : List (String × Value))
        (results : List StepResultR) (pname : String) (idx : Int),
        lookupValue pname params = some a →
        execConditionStep env ⟨"parameter", some pname, b, op, idx⟩ thn els params results
          = (.ok (mkOutcome true "Condition evaluated to false"), execBranch env els params) := by
  simp only [List.mem_cons, List.not_mem_nil, or_false, not_or] at hop
  obtain ⟨h1, h2, h3, h4, h5, h6, h7, h8⟩ := hop
  have h0 : evaluateCondition a b op = .ok false := by
    simp [evaluateCondition, h1, h2, h3, h4, h5, h6, h7, h8]
  refine ⟨h0, ?_⟩
  intro env thn els params results pname idx hlk
  simp [execConditionStep, hlk, h0]

/-- Witness for C10 at the operator string `matches`. -/
theorem unknown_operator_evaluates_false_witness :
    ("matches" ∉ ["eq", "ne", "gt", "lt", "ge", "le", "contains", "not_contains"])
    ∧ evaluateCondition (.str "3") (.str "3") "matches" = .ok false
    ∧ execConditionStep envAllOk ⟨"parameter", some "count", .str "3", "matches", 1⟩
        [] [] [("count", .str "3")] []
        = (.ok (mkOutcome true "Condition evaluated to false"),
           execBranch envAllOk [] [("count", .str "3")]) :=
  ⟨by decide,
   (unknown_operator_evaluates_false (.str "3") (.str "3") "matches" (by decide)).1,
   (unknown_operator_evaluates_false (.str "3") (.str "3") "matches" (by decide)).2
     envAllOk [] [] [("count", .str "3")] [] "count" 1 rfl⟩

/-- C9: a user outside the authorized set is denied, and the denial is
independent of the message content: `_is_user_authorized` returns `false`
and `process_message` returns the fixed not-authorized reply for any two
messages. -/
theorem unauthorized_user_denied (cfg : SecurityConfig) (userId m1 m2 : String)
    (h : userId ∉ cfg.authorizedUsers) :
    isUserAuthorized cfg userId m1 = false
    ∧ isUserAuthorized cfg userId m1 = isUserAuthorized cfg userId m2
    ∧ ∀ env : AppEnv, env.security = cfg →
        processMessage env m1 userId
          = ("You are not authorized to perform this action.", [.authCheck])
        ∧ processMessage env m1 userId = processMessage env m2 userId := by
  have hc : cfg.authorizedUsers.contains userId = false := by
    simpa using h
  have hm : ∀ m : String, isUserAuthorized cfg userId m = false := by
    intro m
    simp [isUserAuthorized, hc]
    intro hmem
    exact absurd hmem h
  refine ⟨hm m1, by rw [hm m1, hm m2], ?_⟩
  intro env henv
  have hp : ∀ m : String, processMessage env m userId
      = ("You are not authorized to perform this action.", [.authCheck]) := by
    intro m
    simp [processMessage, henv, hm m]
  exact ⟨hp m1, by rw [hp m1, hp m2]⟩

/-- Witness for C9: the user `mallory` is outside `secCfg0`'s authorized
set and receives the identical denial for two different messages. -/
theorem unauthorized_user_denied_witness :
    ("mallory" ∉ secCfg0.authorizedUsers)
    ∧ isUserAuthorized secCfg0 "mallory" "hello" = false
    ∧ isUserAuthorized secCfg0 "mallory" "hello"
        = isUserAuthorized secCfg0 "mallory" "restart prod"
    ∧ (processMessage appEnv0 "hello" "mallory"
        = ("You are not authorized to perform this action.", [.authCheck])
       ∧ processMessage appEnv0 "hello" "mallory"
          = processMessage appEnv0 "restart prod" "mallory") :=
  ⟨by decide,
   (unauthorized_user_denied secCfg0 "mallory" "hello" "restart prod" (by decide)).1,
   (unauthorized_user_denied secCfg0 "mallory" "hello" "restart prod" (by decide)).2.1,
   (unauthorized_user_denied secCfg0 "mallory" "hello" "restart prod" (by decide)).2.2
     appEnv0 rfl⟩

/-- C3 counterexample: a workflow whose first step has the unregistered kind
`foo` followed by a notification step. Contrary to the claim, the unknown
step is recorded as a bare string (not a failed result dictionary), the
workflow does not halt — the second step runs and is the second entry of the
report — and the report counts as fully successful. -/
theorem unknown_step_type_claim_counterexample :
    (execLoop envAllOk [] 1 [] [unknownFooStep, notifyStep "done"]).1
      = [⟨1, "mystery", "foo", .ostr "Unknown step type: foo"⟩,
         ⟨2, "notify", "notification", mkOutcome true "Notification sent: done"⟩]
    ∧ allStepsSucceeded (execLoop envAllOk [] 1 [] [unknownFooStep, notifyStep "done"]).1
        = true := by
  constructor <;>
    simp +decide [execLoop, dispatchStep, execConditionStep, execBranch,
      executeWorkflow, envAllOk, notifyStep, unknownFooStep, condNone,
      Step.getName, Step.getType, replaceParameters, extractPlaceholder,
      execNotificationStep, execJenkinsStep, execAnsibleStep, execTerraformStep,
      mkOutcome, outcomeFailed, pyTruthy, lookupValue, pyStr, allStepsSucceeded,
      pyStartswith, pyEndswith, pySlice2m1, pyLower]

/-- C3 amended: a step whose lowercased kind has no registered execution
branch produces the bare string result `Unknown step type: ...` — no raised
error — and the loop continues with the remaining steps unchanged; the
workflow does not halt. -/
theorem unknown_step_type_continues (env : Integrations)
    (params : List (String × Value)) (i : Nat) (acc : List StepResultR)
    (nm : Option String) (ty : String) (sp : List (String × Value))
    (cond : CondSpec) (thn els rest : List Step)
    (h : pyLower ty ∉ ["jenkins", "ansible", "terraform", "condition", "notification"]) :
    execLoop env params i acc (Step.mk nm ty sp cond thn els :: rest)
      = execLoop env params (i + 1)
          (acc ++ [⟨i, nm.getD ("Step " ++ toString i), pyLower ty,
                    .ostr ("Unknown step type: " ++ pyLower ty)⟩]) rest := by
  simp only [List.mem_cons, List.not_mem_nil, or_false, not_or] at h
  obtain ⟨h1, h2, h3, h4, h5⟩ := h
  have hd : dispatchStep env (Step.mk nm ty sp cond thn els) params acc
      = (.ok (.ostr ("Unknown step type: " ++ pyLower ty)), []) := by
    simp [dispatchStep, h1, h2, h3, h4, h5]
  simp [execLoop, hd, outcomeFailed, Step.getName, Step.getType]

/-- Witness for C3's amended claim: the unknown-kind step of the
counterexample workflow, followed by one more step that still runs. -/
theorem unknown_step_type_continues_witness :
    (pyLower "foo" ∉ ["jenkins", "ansible", "terraform", "condition", "notification"])
    ∧ execLoop envAllOk [] 1 [] [Step.mk (some "mystery") "foo" [] condNone [] [],
        notifyStep "done"]
      = execLoop envAllOk [] 2
          [⟨1, (some "mystery").getD ("Step " ++ toString 1), pyLower "foo",
            .ostr ("Unknown step type: " ++ pyLower "foo")⟩] [notifyStep "done"] :=
  ⟨by decide,
   unknown_step_type_continues envAllOk [] 1 [] (some "mystery") "foo" [] condNone
     [] [] [notifyStep "done"] (by decide)⟩

/-- A concrete condition step for the Scenario C shape: operator `eq` on
parameter `count` against the value `3`, a notification in the `then`
branch and a Jenkins step in the `else` branch. -/
def countCondStep : Step :=
  .mk (some "check") "condition" []
    ⟨"parameter", some "count", .str "3", "eq", 1⟩
    [notifyStep "A"] [jenkinsJobStep]

/-- C4 counterexample: executing the Scenario C workflow with `count="3"`.
The `then` branch is selected and its notification step is dispatched (the
call record shows it, and no `else` Jenkins dispatch occurs), but the final
report contains only the condition step's own StepResult — the nested
branch StepResults do not appear in it, contrary to the claim. -/
theorem condition_nested_results_claim_counterexample :
    (execLoop envAllOk [("count", .str "3")] 1 [] [countCondStep]).1
      = [⟨1, "check", "condition", mkOutcome true "Condition evaluated to true"⟩]
    ∧ (execLoop envAllOk [("count", .str "3")] 1 [] [countCondStep]).2
        = [⟨"notification", [("message", .str "A")]⟩] := by
  constructor <;>
    simp +decide [execLoop, dispatchStep, execConditionStep, execBranch,
      executeWorkflow, envAllOk, notifyStep, jenkinsJobStep, countCondStep,
      condNone, Step.getName, Step.getType, replaceParameters,
      extractPlaceholder, execNotificationStep, execJenkinsStep,
      execAnsibleStep, execTerraformStep, mkOutcome, outcomeFailed, pyTruthy,
      lookupValue, pyStr, allStepsSucceeded, evaluateCondition, valueEq,
      formatWorkflowResult, stepLine, pyStartswith, pyEndswith, pySlice2m1,
      pyLower]

/-- C4 amended: a parameter condition step whose predicate evaluates to
true selects the `then` branch: the workflow report for the single-step
workflow contains exactly the condition step's own success StepResult (the
nested branch reports are discarded, so branch StepResults do not appear),
and every recorded dispatch comes from the `then` branch — no `else` step
is ever dispatched. -/
theorem condition_then_branch_selected (env : Integrations)
    (params : List (String × Value)) (nm : Option String) (ty : String)
    (sp : List (String × Value)) (pname : String) (v : Value) (op : String)
    (idx : Int) (actual : Value) (thn els : List Step)
    (hty : pyLower ty = "condition")
    (hlk : lookupValue pname params = some actual)
    (hev : evaluateCondition actual v op = .ok true) :
    execLoop env params 1 [] [Step.mk nm ty sp ⟨"parameter", some pname, v, op, idx⟩ thn els]
      = ([⟨1, nm.getD ("Step " ++ toString 1), "condition",
           mkOutcome true "Condition evaluated to true"⟩],
         execBranch env thn params) := by
  have hcond : execConditionStep env ⟨"parameter", some pname, v, op, idx⟩ thn els params []
      = (.ok (mkOutcome true "Condition evaluated to true"), execBranch env thn params) := by
    simp [execConditionStep, hlk, hev]
  have hd : dispatchStep env
        (Step.mk nm ty sp ⟨"parameter", some pname, v, op, idx⟩ thn els) params []
      = (.ok (mkOutcome true "Condition evaluated to true"), execBranch env thn params) := by
    simp +decide [dispatchStep, hty, hcond]
  simp [execLoop, hd, outcomeFailed, mkOutcome, pyTruthy, lookupValue,
    Step.getName, Step.getType, hty]

/-- Witness for C4's amended claim: Scenario C with `count="3"`. -/
theorem condition_then_branch_selected_witness :
    pyLower "condition" = "condition"
    ∧ lookupValue "count" [("count", .str "3")] = some (.str "3")
    ∧ evaluateCondition (.str "3") (.str "3") "eq" = .ok true
    ∧ execLoop envAllOk [("count", .str "3")] 1 []
        [Step.mk (some "check") "condition" []
          ⟨"parameter", some "count", .str "3", "eq", 1⟩
          [notifyStep "A"] [jenkinsJobStep]]
      = ([⟨1, (some "check").getD ("Step " ++ toString 1), "condition",
           mkOutcome true "Condition evaluated to true"⟩],
         execBranch envAllOk [notifyStep "A"] [("count", .str "3")]) :=
  ⟨rfl, rfl, rfl,
   condition_then_branch_selected envAllOk [("count", .str "3")] (some "check")
     "condition" [] "count" (.str "3") "eq" 1 (.str "3")
     [notifyStep "A"] [jenkinsJobStep] rfl rfl rfl⟩

/-- C5 counterexample: a condition step whose named parameter is absent from
the command parameters. Contrary to the claim that the condition step itself
always reports success, its recorded result dictionary has success false. -/
theorem condition_step_success_claim_counterexample :
    execConditionStep envAllOk ⟨"parameter", some "missing", .vnone, "eq", 1⟩
      [] [] [("count", .str "3")] []
      = (.ok (mkOutcome false "Parameter \x27missing\x27 not found"), []) := by
  simp [execConditionStep, lookupValue]

/-- C5 amended: when the condition's predicate evaluates without error (a
parameter condition whose parameter is present), the condition step's own
StepResult has success true with a message stating which branch fired, and —
for any integration environment, so in particular when branch steps fail —
the parent top-level sequence is never halted: the loop continues with the
remaining steps. -/
theorem condition_step_success_no_halt (env : Integrations)
    (params : List (String × Value)) (i : Nat) (acc : List StepResultR)
    (nm : Option String) (ty : String) (sp : List (String × Value))
    (pname : String) (v : Value) (op : String) (idx : Int) (actual : Value)
    (b : Bool) (thn els rest : List Step)
    (hty : pyLower ty = "condition")
    (hlk : lookupValue pname params = some actual)
    (hev : evaluateCondition actual v op = .ok b) :
    execConditionStep env ⟨"parameter", some pname, v, op, idx⟩ thn els params acc
      = (.ok (mkOutcome true
          (if b then "Condition evaluated to true" else "Condition evaluated to false")),
         execBranch env (if b then thn else els) params)
    ∧ (execLoop env params i acc
        (Step.mk nm ty sp ⟨"parameter", some pname, v, op, idx⟩ thn els :: rest)).1
        = (execLoop env params (i + 1)
            (acc ++ [⟨i, nm.getD ("Step " ++ toString i), "condition",
              mkOutcome true (if b then "Condition evaluated to true"
                              else "Condition evaluated to false")⟩]) rest).1 := by
  have hcond : execConditionStep env ⟨"parameter", some pname, v, op, idx⟩ thn els params acc
      = (.ok (mkOutcome true
          (if b then "Condition evaluated to true" else "Condition evaluated to false")),
         execBranch env (if b then thn else els) params) := by
    cases b <;> simp [execConditionStep, hlk, hev]
  refine ⟨hcond, ?_⟩
  have hd : dispatchStep env
        (Step.mk nm ty sp ⟨"parameter", some pname, v, op, idx⟩ thn els) params acc
      = (.ok (mkOutcome true
          (if b then "Condition evaluated to true" else "Condition evaluated to false")),
         execBranch env (if b then thn else els) params) := by
    simp +decide [dispatchStep, hty, hcond]
  simp [execLoop, hd, outcomeFailed, mkOutcome, pyTruthy, lookupValue,
    Step.getName, Step.getType, hty]

/-- Witness for C5's amended claim: a condition selecting a `then` branch
whose Jenkins step fails (all adapters fail in `envFail`), followed by a
further top-level step — the parent loop still continues into it. -/
theorem condition_step_success_no_halt_witness :
    pyLower "condition" = "condition"
    ∧ lookupValue "count" [("count", .str "3")] = some (.str "3")
    ∧ evaluateCondition (.str "3") (.str "3") "eq" = .ok true
    ∧ (execConditionStep envFail ⟨"parameter", some "count", .str "3", "eq", 1⟩
        [jenkinsJobStep] [] [("count", .str "3")] []
        = (.ok (mkOutcome true
            (if true then "Condition evaluated to true" else "Condition evaluated to false")),
           execBranch envFail (if true then [jenkinsJobStep] else []) [("count", .str "3")])
       ∧ (execLoop envFail [("count", .str "3")] 1 []
           (Step.mk (some "check") "condition" []
              ⟨"parameter", some "count", .str "3", "eq", 1⟩
              [jenkinsJobStep] [] :: [notifyStep "after"])).1
          = (execLoop envFail [("count", .str "3")] (1 + 1)
              ([] ++ [⟨1, (some "check").getD ("Step " ++ toString 1), "condition",
                mkOutcome true (if true then "Condition evaluated to true"
                                else "Condition evaluated to false")⟩])
              [notifyStep "after"]).1) :=
  ⟨rfl, rfl, rfl,
   condition_step_success_no_halt envFail [("count", .str "3")] 1 []
     (some "check") "condition" [] "count" (.str "3") "eq" 1 (.str "3") true
     [jenkinsJobStep] [] [notifyStep "after"] rfl rfl rfl⟩

/-- Halting invariant of the step loop: provided no already-accumulated
result is a failure, any failing result in the loop's output is its very
last entry. -/
theorem execLoop_first_failure_last (env : Integrations)
    (params : List (String × Value)) :
    ∀ (steps : List Step) (i : Nat) (acc : List StepResultR),
      (∀ r ∈ acc, outcomeFailed r.result = false) →
      ∀ (j : Nat) (res : StepResultR),
        ((execLoop env params i acc steps).1)[j]? = some res →
        outcomeFailed res.result = true →
        j + 1 = ((execLoop env params i acc steps).1).length := by
  intro steps
  induction steps with
  | nil =>
    intro i acc hacc j res hj hf
    rw [execLoop] at hj
    exact absurd hf (by simp [hacc res (List.getElem?_mem hj)])
  | cons step rest ih =>
    intro i acc hacc j res hj hf
    rw [execLoop] at hj ⊢
    rcases hd : dispatchStep env step params acc with ⟨out, calls1⟩
    rcases out with e | result
    · simp only [hd] at hj ⊢
      rcases Nat.lt_trichotomy j acc.length with hlt | heq | hgt
      · rw [List.getElem?_append_left hlt] at hj
        exact absurd hf (by simp [hacc res (List.getElem?_mem hj)])
      · subst heq
        simp [List.length_append]
      · have hlen : acc.length + 1 ≤ j := hgt
        rw [List.getElem?_eq_none (by simpa using hlen)] at hj
        exact absurd hj (by simp)
    · by_cases hfail : outcomeFailed result = true
      · simp only [hd, hfail, reduceIte] at hj ⊢
        rcases Nat.lt_trichotomy j acc.length with hlt | heq | hgt
        · rw [List.getElem?_append_left hlt] at hj
          exact absurd hf (by simp [hacc res (List.getElem?_mem hj)])
        · subst heq
          simp [List.length_append]
        · have hlen : acc.length + 1 ≤ j := hgt
          rw [List.getElem?_eq_none (by simpa using hlen)] at hj
          exact absurd hj (by simp)
      · have hfail2 : outcomeFailed result = false := by
          simpa using hfail
        simp only [hd, hfail2, Bool.false_eq_true, reduceIte] at hj ⊢
        refine ih (i + 1)
          (acc ++ [⟨i, step.getName.getD ("Step " ++ toString i),
                    pyLower step.getType, result⟩]) ?_ j res hj hf
        intro r hr
        rcases List.mem_append.1 hr with hr1 | hr2
        · exact hacc r hr1
        · simp only [List.mem_singleton] at hr2
          subst hr2
          exact hfail2

/-- C1: the step loop halts immediately after the first failing StepResult:
whenever the result recorded at position `j` of the report has a false
success flag, position `j` is the last of the report, so no StepResult with
a higher index exists and no later top-level step was dispatched. -/
theorem engine_halts_after_first_failure (env : Integrations)
    (params : List (String × Value)) (steps : List Step) (j : Nat)
    (res : StepResultR)
    (hj : ((execLoop env params 1 [] steps).1)[j]? = some res)
    (hf : outcomeFailed res.result = true) :
    j + 1 = ((execLoop env params 1 [] steps).1).length :=
  execLoop_first_failure_last env params steps 1 [] (by simp) j res hj hf

/-- Witness for C1: a two-step workflow whose first (Jenkins) step fails
under `envFail`; the failing result at index 0 is the last of the report. -/
theorem engine_halts_after_first_failure_witness :
    ((execLoop envFail [] 1 [] [jenkinsJobStep, notifyStep "x"]).1)[0]?
      = some ⟨1, "build", "jenkins",
          .odict [("success", .vbool false), ("message", .str "jenkins down")]⟩
    ∧ outcomeFailed (StepOutcome.odict
        [("success", .vbool false), ("message", .str "jenkins down")]) = true
    ∧ 0 + 1 = ((execLoop envFail [] 1 [] [jenkinsJobStep, notifyStep "x"]).1).length :=
  ⟨by simp +decide [execLoop, dispatchStep, execConditionStep, execBranch,
      executeWorkflow, envFail, notifyStep, jenkinsJobStep, condNone,
      Step.getName, Step.getType, replaceParameters, extractPlaceholder,
      execNotificationStep, execJenkinsStep, execAnsibleStep,
      execTerraformStep, mkOutcome, outcomeFailed, pyTruthy, lookupValue,
      pyStr, pyStartswith, pyEndswith, pySlice2m1, pyLower],
   rfl,
   engine_halts_after_first_failure envFail [] [jenkinsJobStep, notifyStep "x"]
     0 ⟨1, "build", "jenkins",
        .odict [("success", .vbool false), ("message", .str "jenkins down")]⟩
     (by simp +decide [execLoop, dispatchStep, execConditionStep, execBranch,
        executeWorkflow, envFail, notifyStep, jenkinsJobStep, condNone,
        Step.getName, Step.getType, replaceParameters, extractPlaceholder,
        execNotificationStep, execJenkinsStep, execAnsibleStep,
        execTerraformStep, mkOutcome, outcomeFailed, pyTruthy, lookupValue,
        pyStr, pyStartswith, pyEndswith, pySlice2m1, pyLower])
     rfl⟩

/-- The formatter's overall-success flag is the conjunction of the per-step
success tests the engine itself uses for halting. -/
theorem allStepsSucceeded_eq_all (rs : List StepResultR) :
    allStepsSucceeded rs = rs.all (fun r => !(outcomeFailed r.result)) := by
  induction rs with
  | nil => rfl
  | cons r rs ih =>
    simp only [allStepsSucceeded, List.all_cons] at *
    rcases hr : r.result with entries | s <;> simp [outcomeFailed, hr, ih]

/-- Shape invariant of the step loop: the output extends the accumulator,
adds at most one entry per remaining step, never reorders, and each added
entry carries the 1-based index, defaulted name and lowercased kind of the
step it was produced by. -/
theorem execLoop_report_shape (env : Integrations)
    (params : List (String × Value)) :
    ∀ (steps : List Step) (i : Nat) (acc : List StepResultR),
      acc.length ≤ ((execLoop env params i acc steps).1).length
      ∧ ((execLoop env params i acc steps).1).length ≤ acc.length + steps.length
      ∧ (∀ j : Nat, j < acc.length → ((execLoop env params i acc steps).1)[j]? = acc[j]?)
      ∧ (∀ j : Nat, acc.length ≤ j → j < ((execLoop env params i acc steps).1).length →
          ∃ res step, ((execLoop env params i acc steps).1)[j]? = some res
            ∧ steps[j - acc.length]? = some step
            ∧ res.step = i + (j - acc.length)
            ∧ res.name = step.getName.getD ("Step " ++ toString (i + (j - acc.length)))
            ∧ res.type = pyLower step.getType) := by
  intro steps
  induction steps with
  | nil =>
    intro i acc
    rw [execLoop]
    refine ⟨Nat.le_refl _, by simp, fun j hj => rfl, fun j h1 h2 => ?_⟩
    simp at h2
    omega
  | cons step rest ih =>
    intro i acc
    rw [execLoop]
    rcases hd : dispatchStep env step params acc with ⟨out, calls1⟩
    have happ : ∀ result : StepOutcome,
        let acc2 := acc ++ [⟨i, step.getName.getD ("Step " ++ toString i),
                             pyLower step.getType, result⟩]
        acc.length ≤ acc2.length
        ∧ acc2.length ≤ acc.length + (step :: rest).length
        ∧ (∀ j : Nat, j < acc.length → acc2[j]? = acc[j]?)
        ∧ (∀ j : Nat, acc.length ≤ j → j < acc2.length →
            ∃ res step2, acc2[j]? = some res
              ∧ (step :: rest)[j - acc.length]? = some step2
              ∧ res.step = i + (j - acc.length)
              ∧ res.name = step2.getName.getD ("Step " ++ toString (i + (j - acc.length)))
              ∧ res.type = pyLower step2.getType) := by
      intro result
      refine ⟨by simp, by simp, ?_, ?_⟩
      · intro j hj
        exact List.getElem?_append_left hj
      · intro j h1 h2
        have hje : j = acc.length := by
          simp at h2
          omega
        subst hje
        refine ⟨_, step, List.getElem?_concat_length _ _, ?_, ?_, ?_, ?_⟩ <;>
          simp [Nat.sub_self]
    rcases out with e | result
    · simp only [hd]
      exact happ (mkOutcome false e)
    · by_cases hfail : outcomeFailed result = true
      · simp only [hd, hfail, reduceIte]
        exact happ result
      · have hfail2 : outcomeFailed result = false := by simpa using hfail
        simp only [hd, hfail2, Bool.false_eq_true, reduceIte]
        set acc2 := acc ++ [(⟨i, step.getName.getD ("Step " ++ toString i),
                             pyLower step.getType, result⟩ : StepResultR)] with hacc2
        obtain ⟨hh1, hh2, hh3, hh4⟩ := ih (i + 1) acc2
        have hlen2 : acc2.length = acc.length + 1 := by simp [hacc2]
        refine ⟨?_, ?_, ?_, ?_⟩
        · omega
        · have h5 := hh2
          rw [hlen2] at h5
          simp only [List.length_cons]
          omega
        · intro j hj
          rw [hh3 j (by omega)]
          exact List.getElem?_append_left hj
        · intro j h1 h2
          rcases Nat.lt_or_ge j acc2.length with hlt | hge
          · have hje : j = acc.length := by omega
            subst hje
            refine ⟨⟨i, step.getName.getD ("Step " ++ toString i),
                     pyLower step.getType, result⟩, step, ?_, ?_, ?_, ?_, ?_⟩
            · rw [hh3 _ (by omega), hacc2]
              exact List.getElem?_concat_length _ _
            · simp [Nat.sub_self]
            · simp [Nat.sub_self]
            · simp [Nat.sub_self]
            · simp
          · obtain ⟨res, step2, hres, hstep2, hidx, hname, htype⟩ := hh4 j hge h2
            refine ⟨res, step2, hres, ?_, ?_, ?_, htype⟩
            · have h3 : j - acc.length = (j - acc2.length) + 1 := by omega
              rw [h3]
              simpa using hstep2
            · rw [hidx]
              omega
            · have h3 : i + (j - acc.length) = i + 1 + (j - acc2.length) := by omega
              rw [h3]
              exact hname

/-- C7: for every report produced by the step loop, the overall-success flag
computed by the formatter is the conjunction of every recorded StepResult's
success test; the report never reorders or drops steps: the StepResults sit
in dispatch order, the `j`-th entry carrying index `j+1` and the name and
kind of the `j`-th step, so every dispatched step has exactly one
corresponding StepResult. -/
theorem report_complete_ordered (env : Integrations)
    (params : List (String × Value)) (steps : List Step) :
    allStepsSucceeded (execLoop env params 1 [] steps).1
      = (execLoop env params 1 [] steps).1.all (fun r => !(outcomeFailed r.result))
    ∧ ((execLoop env params 1 [] steps).1).length ≤ steps.length
    ∧ (∀ j : Nat, j < ((execLoop env params 1 [] steps).1).length →
        ∃ res step, ((execLoop env params 1 [] steps).1)[j]? = some res
          ∧ steps[j]? = some step
          ∧ res.step = j + 1
          ∧ res.name = step.getName.getD ("Step " ++ toString (j + 1))
          ∧ res.type = pyLower step.getType) := by
  obtain ⟨h1, h2, h3, h4⟩ := execLoop_report_shape env params steps 1 []
  refine ⟨allStepsSucceeded_eq_all _, by simpa using h2, ?_⟩
  intro j hj
  obtain ⟨res, step, hres, hstep, hidx, hname, htype⟩ :=
    h4 j (Nat.zero_le j) hj
  refine ⟨res, step, hres, by simpa using hstep, ?_, ?_, htype⟩
  · simp only [List.length_nil, Nat.sub_zero] at hidx
    omega
  · have hji : 1 + (j - List.length ([] : List StepResultR)) = j + 1 := by
      simp
      omega
    rw [hji] at hname
    simpa using hname

/-- Witness for C7: a two-step workflow under the always-succeeding
environment; the report entry at index 0 corresponds to the first step. -/
theorem report_complete_ordered_witness :
    (0 < ((execLoop envAllOk [] 1 [] [notifyStep "a", jenkinsJobStep]).1).length)
    ∧ ∃ res step,
        ((execLoop envAllOk [] 1 [] [notifyStep "a", jenkinsJobStep]).1)[0]? = some res
        ∧ [notifyStep "a", jenkinsJobStep][0]? = some step
        ∧ res.step = 0 + 1
        ∧ res.name = step.getName.getD ("Step " ++ toString (0 + 1))
        ∧ res.type = pyLower step.getType :=
  ⟨by simp +decide [execLoop, dispatchStep, execConditionStep, execBranch,
      executeWorkflow, envAllOk, notifyStep, jenkinsJobStep, condNone,
      Step.getName, Step.getType, replaceParameters, extractPlaceholder,
      execNotificationStep, execJenkinsStep, execAnsibleStep,
      execTerraformStep, mkOutcome, outcomeFailed, pyTruthy, lookupValue,
      pyStr, pyStartswith, pyEndswith, pySlice2m1, pyLower],
   (report_complete_ordered envAllOk [] [notifyStep "a", jenkinsJobStep]).2.2 0
     (by simp +decide [execLoop, dispatchStep, execConditionStep, execBranch,
        executeWorkflow, envAllOk, notifyStep, jenkinsJobStep, condNone,
        Step.getName, Step.getType, replaceParameters, extractPlaceholder,
        execNotificationStep, execJenkinsStep, execAnsibleStep,
        execTerraformStep, mkOutcome, outcomeFailed, pyTruthy, lookupValue,
        pyStr, pyStartswith, pyEndswith, pySlice2m1, pyLower])⟩

section ParserLemmas

/-- A successful association lookup exhibits a member of the list. -/
theorem assocLookup_mem {α : Type} (k : String) (l : List (String × α)) (v : α)
    (h : assocLookup k l = some v) : (k, v) ∈ l := by
  induction l with
  | nil => simp [assocLookup] at h
  | cons kv rest ih =>
    obtain ⟨k2, v2⟩ := kv
    by_cases hk : k2 = k
    · subst hk
      simp [assocLookup] at h
      subst h
      exact List.mem_cons_self _ _
    · simp [assocLookup, hk] at h
      exact List.mem_cons_of_mem _ (ih h)

/-- Lookup of a key absent from a dict yields nothing. -/
theorem lookupValue_eq_none_of_not_mem (k : String)
    (es : List (String × Value)) (h : k ∉ es.map Prod.fst) :
    lookupValue k es = none := by
  induction es with
  | nil => rfl
  | cons kv rest ih =>
    obtain ⟨k2, v2⟩ := kv
    simp only [List.map_cons, List.mem_cons, not_or] at h
    have hne : k2 ≠ k := fun he => h.1 he.symm
    simp [lookupValue, hne, ih h.2]

/-- Lookup after a single dict assignment. -/
theorem lookupValue_dictSet (d : List (String × Value)) (k k2 : String)
    (v : Value) :
    lookupValue k2 (dictSet d k v) = if k = k2 then some v else lookupValue k2 d := by
  induction d with
  | nil => by_cases h : k = k2 <;> simp [dictSet, lookupValue, h]
  | cons kv rest ih =>
    obtain ⟨k3, v3⟩ := kv
    by_cases h1 : k3 = k
    · subst h1
      by_cases h2 : k3 = k2 <;> simp [dictSet, lookupValue, h2]
    · by_cases h2 : k3 = k2
      · subst h2
        have h3 : k ≠ k3 := fun he => h1 he.symm
        simp [dictSet, lookupValue, h1, h3]
      · simp [dictSet, lookupValue, h1, h2, ih]

/-- Lookup through the defaults-then-overwrite fold of `CommandParser.parse`:
for a dict with distinct keys, folding its entries over a base with
assignment makes its bindings win over the base's. -/
theorem lookupValue_foldl_dictSet (es : List (String × Value)) :
    ∀ base : List (String × Value), (es.map Prod.fst).Nodup →
      ∀ k : String,
        lookupValue k (es.foldl (fun acc kv => dictSet acc kv.1 kv.2) base)
          = (lookupValue k es).or (lookupValue k base) := by
  induction es with
  | nil =>
    intro base h k
    simp [lookupValue]
  | cons kv rest ih =>
    obtain ⟨k0, v0⟩ := kv
    intro base h k
    simp only [List.map_cons, List.nodup_cons] at h
    obtain ⟨hnot, hnd⟩ := h
    rw [List.foldl_cons, ih (dictSet base k0 v0) hnd k]
    by_cases hk : k0 = k
    · subst hk
      have hrest : lookupValue k0 rest = none :=
        lookupValue_eq_none_of_not_mem k0 rest hnot
      simp [lookupValue, hrest, lookupValue_dictSet]
    · simp [lookupValue, hk, lookupValue_dictSet, Ne.symm hk]

end ParserLemmas

/-- C6: for every intent with a registered template and every entity map (a
dict, so with distinct keys) containing all of the template's required
entities, `parse` succeeds with the template's action, its workflow
reference when truthy, and a parameter map equal to the defaults overridden
by the provided entities (provided values win); in particular the deploy
scenario yields exactly the Scenario A command. -/
theorem build_defaults_overridden :
    (∀ (intent : String) (entities : List (String × Value)) (t : CommandTemplate),
       assocLookup intent commandTemplates = some t →
       (entities.map Prod.fst).Nodup →
       (∀ r ∈ t.requiredEntities, (lookupValue r entities).isSome) →
       ∃ cmd : Command, parseCommand intent entities = some cmd
         ∧ cmd.action = t.action
         ∧ cmd.workflow = (match t.workflow with
             | some w => if w == "" then none else some w
             | none => none)
         ∧ ∀ k : String, lookupValue k cmd.parameters
             = (lookupValue k entities).or (lookupValue k t.defaults))
    ∧ parseCommand "deploy" [("service", .str "api"), ("environment", .str "production")]
        = some ⟨"deploy",
                [("environment", .str "production"), ("version", .str "latest"),
                 ("service", .str "api")],
                some "deploy_workflow.yaml"⟩ := by
  constructor
  · intro intent entities t ht hnd hreq
    have hmem : (intent, t) ∈ commandTemplates := assocLookup_mem intent _ t ht
    have hdnd : (t.defaults.map Prod.fst).Nodup := by
      have hall : ∀ p ∈ commandTemplates, ((p.2.defaults.map Prod.fst).Nodup) := by
        decide
      exact hall (intent, t) hmem
    have hany : (t.requiredEntities.any fun r => (lookupValue r entities).isNone) = false := by
      rw [List.any_eq_false]
      intro r hr
      have h2 := hreq r hr
      rcases hv : lookupValue r entities with _ | v
      · rw [hv] at h2
        simp at h2
      · simp [hv]
    refine ⟨⟨t.action,
             entities.foldl (fun acc kv => dictSet acc kv.1 kv.2)
               (t.defaults.foldl (fun acc kv => dictSet acc kv.1 kv.2) []),
             match t.workflow with
             | some w => if w == "" then none else some w
             | none => none⟩, ?_, rfl, rfl, ?_⟩
    · simp only [parseCommand, ht, hany, Bool.false_eq_true, reduceIte]
    · intro k
      rw [lookupValue_foldl_dictSet entities _ hnd k,
        lookupValue_foldl_dictSet t.defaults [] hdnd k]
      simp [lookupValue]
  · rfl

/-- Witness for C6: Scenario A, instantiating the general conjunct at the
deploy intent with the scenario entities. -/
theorem build_defaults_overridden_witness :
    assocLookup "deploy" commandTemplates
      = some ⟨"deploy", ["service"], ["environment", "version"],
              [("environment", .str "development"), ("version", .str "latest")],
              some "deploy_workflow.yaml"⟩
    ∧ (([("service", Value.str "api"), ("environment", Value.str "production")].map
          Prod.fst).Nodup)
    ∧ (∀ r ∈ ["service"],
        (lookupValue r [("service", Value.str "api"),
                        ("environment", Value.str "production")]).isSome)
    ∧ ∃ cmd : Command,
        parseCommand "deploy" [("service", .str "api"), ("environment", .str "production")]
          = some cmd
        ∧ cmd.action = "deploy"
        ∧ cmd.workflow = (match (some "deploy_workflow.yaml" : Option String) with
            | some w => if w == "" then none else some w
            | none => none)
        ∧ ∀ k : String, lookupValue k cmd.parameters
            = (lookupValue k [("service", Value.str "api"),
                              ("environment", Value.str "production")]).or
              (lookupValue k [("environment", Value.str "development"),
                              ("version", Value.str "latest")]) :=
  ⟨rfl, by decide, by decide,
   build_defaults_overridden.1 "deploy"
     [("service", .str "api"), ("environment", .str "production")]
     ⟨"deploy", ["service"], ["environment", "version"],
      [("environment", .str "development"), ("version", .str "latest")],
      some "deploy_workflow.yaml"⟩
     rfl (by decide) (by decide)⟩

/-- C8 counterexample: under `appEnv0` the resolver extracts no entities for
the deploy intent, so the required entity `service` is missing and the
Command Builder rejects — yet the Authorization Gate has been invoked for
the message (it is the first recorded pipeline event), contradicting the
claim that it is never invoked for such a message. -/
theorem auth_gate_claim_counterexample :
    parseCommand "deploy" [] = none
    ∧ (processMessage appEnv0 "deploy the api" "alice").1
        = "I couldn\x27t understand your command. Please try again."
    ∧ PipelineEvent.authCheck ∈ (processMessage appEnv0 "deploy the api" "alice").2 := by
  refine ⟨rfl, ?_, ?_⟩ <;>
    simp +decide [processMessage, appEnv0, secCfg0, isUserAuthorized, requiresApproval,
      parseCommand, assocLookup, lookupValue, commandTemplates, dictSet,
      pyLower, containsSub, wmExecute, loadWorkflowTemplate]

/-- C8 amended: the Authorization Gate runs first, before the Resolver and
the Command Builder. For every message that passes authorization and the
confidence threshold but whose extracted entities make the Command Builder
reject (for example a missing required entity), the pipeline replies with
the generic could-not-understand rejection; the Authorization Gate has
already been invoked (first event of the trace), and neither the approval
check nor workflow execution is ever invoked. -/
theorem builder_rejection_after_auth_gate (env : AppEnv)
    (msg uid intent : String) (entities : List (String × Value)) (conf : ℚ)
    (hnlp : env.nlp msg = (intent, entities, conf))
    (hauth : isUserAuthorized env.security uid msg = true)
    (hconf : ¬ conf < env.confidenceThreshold)
    (hparse : parseCommand intent entities = none) :
    processMessage env msg uid
      = ("I couldn\x27t understand your command. Please try again.",
         [.authCheck, .nlpProcess, .parseCmd]) := by
  simp [processMessage, hnlp, hauth, hconf, hparse]

/-- Witness for C8's amended claim at the counterexample input. -/
theorem builder_rejection_after_auth_gate_witness :
    appEnv0.nlp "deploy the api" = ("deploy", [], 1)
    ∧ isUserAuthorized appEnv0.security "alice" "deploy the api" = true
    ∧ ¬ (1 : ℚ) < appEnv0.confidenceThreshold
    ∧ parseCommand "deploy" [] = none
    ∧ processMessage appEnv0 "deploy the api" "alice"
        = ("I couldn\x27t understand your command. Please try again.",
           [.authCheck, .nlpProcess, .parseCmd]) :=
  ⟨rfl, by decide, by decide, rfl,
   builder_rejection_after_auth_gate appEnv0 "deploy the api" "alice" "deploy"
     [] 1 rfl (by decide) (by decide) rfl⟩

end ChatOps
